import Mathlib

/-!
Verification of the natural-language specification of `recursearch.py`
(ethteck/recursearch), a tool that recursively searches a directory tree for a
literal string, descending into nested tar/zip/7z/rar archives.

The Python program is shallowly embedded: file contents and the results of the
library calls the script makes (`tarfile.is_tarfile`, `zipfile.is_zipfile`,
`py7zr.is_7zfile`, `rarfile.is_rarfile`, the four `extractall` backends, and
the two `open(...)` reads) are modelled as oracles attached to each file node.
An oracle value `Except.error e` means the corresponding library call raises
the Python exception `e` at the call site; the embedding then reproduces
exactly the `try/except` structure of the script, so an exception is swallowed
only where the script catches it and otherwise propagates, aborting the run
(as an uncaught Python exception does).
-/

namespace Recursearch

/-- Python exception classes that can arise at the library-call sites used by
the script.  `osError` stands for any `OSError` (e.g. `PermissionError` from an
unreadable file), `tarReadError` for `tarfile.ReadError`. -/
inductive ExcKind where
  | eofError
  | badZipFile
  | unsupportedCompressionMethodError
  | badRarFile
  | unicodeDecodeError
  | osError
  | tarReadError
  deriving DecidableEq, Repr

/-- The three text encodings tried by the binary matcher (source line 19,
`BINARY_TEXT_ENCODINGS = ["UTF-8", "EUC-JP", "Shift-JIS"]`). -/
inductive PEncoding where
  | utf8
  | eucjp
  | sjis
  deriving DecidableEq, Repr

/-- The encoding priority list, in source order. -/
def BINARY_TEXT_ENCODINGS : List PEncoding := [.utf8, .eucjp, .sjis]

/-- Priority index of an encoding in `BINARY_TEXT_ENCODINGS`. -/
def pidx : PEncoding → Nat
  | .utf8 => 0
  | .eucjp => 1
  | .sjis => 2

/-- Observable output of a run: the `info`/`warn` lines and the three kinds of
match report (`success` lines).  Match events carry both the semantic path
(`semantic_path / file`, in scope at each emission site) and the real
filesystem path (`file_path`), so that claims about either can be stated. -/
inductive Event where
  | info (msg : String)
  | warn (msg : String)
  | nameMatch (sem real : String)
  | binMatch (sem real : String) (enc : PEncoding)
  | textMatch (sem real : String)
  deriving DecidableEq, Repr

/-- Result of running a (piece of the) script: events printed so far, strings
appended to the global `found_paths` list, and `some e` if Python exception `e`
escaped (aborting everything further in the run). -/
structure RunOut where
  events : List Event
  found : List String
  exn : Option ExcKind
  deriving DecidableEq, Repr

/-- The empty run (no output, no exception). -/
def RunOut.done : RunOut := ⟨[], [], none⟩

/-- A run that immediately raises `e`. -/
def RunOut.raise (e : ExcKind) : RunOut := ⟨[], [], some e⟩

/-- Sequencing of runs: if the first raised, the second never executes. -/
def RunOut.seq (a b : RunOut) : RunOut :=
  match a.exn with
  | some _ => a
  | none => ⟨a.events ++ b.events, a.found ++ b.found, b.exn⟩

/-- `info(msg)` (LOG_LEVEL is 1 in the source, so info lines always print). -/
def infoOut (msg : String) : RunOut := ⟨[.info msg], [], none⟩

/-- `warn(msg)`. -/
def warnOut (msg : String) : RunOut := ⟨[.warn msg], [], none⟩

/-- Boolean test that `p` occurs at the front of `l` (element-wise equality). -/
def isPrefB [DecidableEq α] : List α → List α → Bool
  | [], _ => true
  | _ :: _, [] => false
  | a :: as, b :: bs => decide (a = b) && isPrefB as bs

/-- Boolean contiguous-subsequence test, the semantics of Python's `in` on
`str` (over code points) and on `bytes` (over bytes). -/
def isSubB [DecidableEq α] (needle : List α) : List α → Bool
  | [] => needle.isEmpty
  | b :: bs => isPrefB needle (b :: bs) || isSubB needle bs

/-- Python `needle in hay` for strings. -/
def strIn (needle hay : String) : Bool := isSubB needle.data hay.data

/-- UTF-8 encoding of one code point, as byte values. -/
def utf8Char (c : Char) : List Nat :=
  let n := c.toNat
  if n < 0x80 then [n]
  else if n < 0x800 then [0xC0 + n / 64, 0x80 + n % 64]
  else if n < 0x10000 then [0xE0 + n / 4096, 0x80 + (n / 64) % 64, 0x80 + n % 64]
  else [0xF0 + n / 262144, 0x80 + (n / 4096) % 64, 0x80 + (n / 64) % 64, 0x80 + n % 64]

/-- Python `bytes(s, "UTF-8")`. -/
def utf8Encode (s : String) : List Nat := (s.data.map utf8Char).flatten

/-- Environment of a run: the names `tempfile.TemporaryDirectory` chooses for
the scratch directory of each extracted archive (indexed by the archive's real
path; the names are irrelevant to the program's logic and only appear inside
real paths), and the byte encodings `bytes(s, "EUC-JP")` / `bytes(s,
"Shift-JIS")` (their code tables are external to the script). -/
structure Env where
  tmp : String → String
  eucjp : String → List Nat
  sjis : String → List Nat

/-- Python `bytes(s, enc)` for the three configured encodings. -/
def encodeStr (env : Env) : PEncoding → String → List Nat
  | .utf8 => utf8Encode
  | .eucjp => env.eucjp
  | .sjis => env.sjis

mutual

/-- A file as the script observes it: the four format-probe results, the
result of extracting it as an archive (meaningful when some probe is true),
and the results of `open(path, "rb").read()` and `open(path, "r").read()`. -/
inductive Node : Type where
  | mk : Except ExcKind Bool → Except ExcKind Bool → Except ExcKind Bool →
      Except ExcKind Bool → ExtractRes → Except ExcKind (List Nat) →
      Except ExcKind String → Node

/-- Outcome of an `extractall` backend: the directory tree of extracted
entries, or the Python exception it raises. -/
inductive ExtractRes : Type where
  | ok : DirT → ExtractRes
  | err : ExcKind → ExtractRes

/-- A directory as `os.walk` presents it: its files and its subdirectories
(`os.walk` yields a directory's files first, then recurses into each
subdirectory in order). -/
inductive DirT : Type where
  | mk : FileL → SubL → DirT

/-- List of (name, file) pairs of one directory. -/
inductive FileL : Type where
  | nil : FileL
  | cons : String → Node → FileL → FileL

/-- List of (name, subdirectory) pairs of one directory. -/
inductive SubL : Type where
  | nil : SubL
  | cons : String → DirT → SubL → SubL

end

/-- `tarfile.is_tarfile(file_path)` result. -/
def Node.isTar : Node → Except ExcKind Bool
  | .mk t _ _ _ _ _ _ => t

/-- `zipfile.is_zipfile(file_path)` result. -/
def Node.isZip : Node → Except ExcKind Bool
  | .mk _ z _ _ _ _ _ => z

/-- `py7zr.is_7zfile(file_path)` result. -/
def Node.is7z : Node → Except ExcKind Bool
  | .mk _ _ s _ _ _ _ => s

/-- `rarfile.is_rarfile(file_path)` result. -/
def Node.isRar : Node → Except ExcKind Bool
  | .mk _ _ _ r _ _ _ => r

/-- Result of extracting this file as an archive. -/
def Node.extract : Node → ExtractRes
  | .mk _ _ _ _ e _ _ => e

/-- `open(file_path, "rb").read()` result. -/
def Node.readBin : Node → Except ExcKind (List Nat)
  | .mk _ _ _ _ _ b _ => b

/-- `open(file_path, "r").read()` result (an `Except.error unicodeDecodeError`
models a decode failure during the text-mode read). -/
def Node.readText : Node → Except ExcKind String
  | .mk _ _ _ _ _ _ t => t

/-- Source lines 115-117: the filename check.  Tests the search string against
`str(file_path)` (the real path), and on success prints a success line and
appends `str(file_path)` to `found_paths`. -/
def nameCheck (s semF fp : String) : RunOut :=
  if strIn s fp then ⟨[.nameMatch semF fp], [fp], none⟩ else ⟨[], [], none⟩

/-- `handle_bin` (source lines 86-93): read the raw bytes, then for each
encoding in `BINARY_TEXT_ENCODINGS` test whether `bytes(string, encoding)`
occurs in the data; report the first hit.  The `open`/`read` has no handler,
so a read error propagates. -/
def handle_bin (env : Env) (s semF fp : String) (rb : Except ExcKind (List Nat)) :
    RunOut × Bool :=
  match rb with
  | .error e => (RunOut.raise e, false)
  | .ok data =>
    match BINARY_TEXT_ENCODINGS.find? (fun enc => isSubB (encodeStr env enc s) data) with
    | some enc => (⟨[.binMatch semF fp enc], [], none⟩, true)
    | none => (⟨[], [], none⟩, false)

/-- `handle_text` (source lines 95-104): read the file in text mode and test
substring membership; `UnicodeDecodeError` is caught and yields no match,
any other exception propagates. -/
def handle_text (s semF fp : String) (rt : Except ExcKind String) : RunOut × Bool :=
  match rt with
  | .error .unicodeDecodeError => (⟨[], [], none⟩, false)
  | .error e => (RunOut.raise e, false)
  | .ok data =>
    if strIn s data then (⟨[.textMatch semF fp], [], none⟩, true)
    else (⟨[], [], none⟩, false)

/-- The `else` branch of the classification chain (source lines 129-131):
binary check first, text check only when the binary check returned False. -/
def handleOther (env : Env) (s semF fp : String) (n : Node) : RunOut :=
  if (handle_bin env s semF fp n.readBin).2 then (handle_bin env s semF fp n.readBin).1
  else
    RunOut.seq (handle_bin env s semF fp n.readBin).1 (handle_text s semF fp n.readText).1

/-- The five-way format classification of a file. -/
inductive FileClass where
  | tar
  | zip
  | sevenZip
  | rar
  | other
  deriving DecidableEq, Repr

/-- The `if/elif` probe chain of source lines 120-128: probes are evaluated in
the order tar, zip, 7z, rar; the first `True` decides; all `False` falls back
to the plain-file branch; an exception from a probe propagates and later
probes are not evaluated. -/
def classify (n : Node) : Except ExcKind FileClass :=
  match n.isTar with
  | .error e => .error e
  | .ok true => .ok .tar
  | .ok false =>
    match n.isZip with
    | .error e => .error e
    | .ok true => .ok .zip
    | .ok false =>
      match n.is7z with
      | .error e => .error e
      | .ok true => .ok .sevenZip
      | .ok false =>
        match n.isRar with
        | .error e => .error e
        | .ok true => .ok .rar
        | .ok false => .ok .other

mutual

/-- `search` (source lines 106-132) applied to a directory: print the
"Entering" line for the semantic path, then walk the directory: current
directory's files first, then each subdirectory (the `os.walk` loop). -/
def searchD (env : Env) (s sem real : String) (d : DirT) : RunOut :=
  match d with
  | .mk fs ss =>
    RunOut.seq (infoOut ("Entering " ++ sem))
      (RunOut.seq (walkFiles env s sem real fs) (walkSubs env s sem real ss))

/-- Process the files of one walked directory in order. -/
def walkFiles (env : Env) (s sem real : String) (fs : FileL) : RunOut :=
  match fs with
  | .nil => RunOut.done
  | .cons name n rest =>
    RunOut.seq (processFile env s sem real name n) (walkFiles env s sem real rest)

/-- Continue the `os.walk` iteration into the subdirectories: each
subdirectory's files, then its own subdirectories, then the remaining
siblings.  The semantic path does not change across real subdirectories (only
`handle_*` extends it); the real path gains the directory name. -/
def walkSubs (env : Env) (s sem real : String) (ss : SubL) : RunOut :=
  match ss with
  | .nil => RunOut.done
  | .cons name (.mk fs2 ss2) rest =>
    RunOut.seq
      (RunOut.seq (walkFiles env s sem (real ++ "/" ++ name) fs2)
        (walkSubs env s sem (real ++ "/" ++ name) ss2))
      (walkSubs env s sem real rest)

/-- The body of the inner `for file in files` loop (source lines 112-132) for
one file: the filename check against `str(file_path)`, then the probe chain,
dispatching to the matching archive handler or to the binary/text matchers. -/
def processFile (env : Env) (s sem real name : String) (n : Node) : RunOut :=
  match n with
  | .mk t z sz rr ext rb rt =>
    RunOut.seq (nameCheck s (sem ++ "/" ++ name) (real ++ "/" ++ name))
      (match classify (.mk t z sz rr ext rb rt) with
       | .error e => RunOut.raise e
       | .ok .tar => handle_tar env s (sem ++ "/" ++ name) (real ++ "/" ++ name) ext
       | .ok .zip => handle_zip env s (sem ++ "/" ++ name) (real ++ "/" ++ name) ext
       | .ok .sevenZip => handle_7z env s (sem ++ "/" ++ name) (real ++ "/" ++ name) ext
       | .ok .rar => handle_rar env s (sem ++ "/" ++ name) (real ++ "/" ++ name) ext
       | .ok .other =>
         handleOther env s (sem ++ "/" ++ name) (real ++ "/" ++ name)
           (.mk t z sz rr ext rb rt))

/-- `handle_tar` (source lines 44-52): only `EOFError` is caught (warn and
skip); any other extraction exception propagates; on success recurse with the
extended semantic path and the scratch directory as real root. -/
def handle_tar (env : Env) (s semF fp : String) (ext : ExtractRes) : RunOut :=
  RunOut.seq (infoOut ("Extracting tar " ++ fp))
    (match ext with
     | .err .eofError => warnOut ("Failed to extract tar " ++ fp)
     | .err e => RunOut.raise e
     | .ok d => searchD env s semF (env.tmp fp) d)

/-- `handle_zip` (source lines 54-60): no `try/except` at all, so every
extraction exception propagates. -/
def handle_zip (env : Env) (s semF fp : String) (ext : ExtractRes) : RunOut :=
  RunOut.seq (infoOut ("Extracting zip " ++ fp))
    (match ext with
     | .err e => RunOut.raise e
     | .ok d => searchD env s semF (env.tmp fp) d)

/-- `handle_7z` (source lines 62-72): only
`py7zr.UnsupportedCompressionMethodError` is caught. -/
def handle_7z (env : Env) (s semF fp : String) (ext : ExtractRes) : RunOut :=
  RunOut.seq (infoOut ("Extracting 7z " ++ fp))
    (match ext with
     | .err .unsupportedCompressionMethodError => warnOut ("Failed to extract 7z " ++ fp)
     | .err e => RunOut.raise e
     | .ok d => searchD env s semF (env.tmp fp) d)

/-- `handle_rar` (source lines 74-84): only `rarfile.BadRarFile` is caught. -/
def handle_rar (env : Env) (s semF fp : String) (ext : ExtractRes) : RunOut :=
  RunOut.seq (infoOut ("Extracting rar " ++ fp))
    (match ext with
     | .err .badRarFile => warnOut ("Failed to extract rar " ++ fp)
     | .err e => RunOut.raise e
     | .ok d => searchD env s semF (env.tmp fp) d)

end

/-- Top-level `search(path, path, string)` call.  `root = none` models a root
path that does not exist or is not a directory: `os.walk` is called with its
default `onerror=None`, which silently swallows the `scandir` error and yields
no triples, so the call prints only the "Entering" line and returns normally
(this is documented `os.walk` behavior, not a branch of the script). -/
def searchRoot (env : Env) (s rootPath : String) (root : Option DirT) : RunOut :=
  match root with
  | none => ⟨[.info ("Entering " ++ rootPath)], [], none⟩
  | some d => searchD env s rootPath rootPath d

/-- Exit status of the process (source lines 134-143): the script never calls
its `error` helper and never calls `sys.exit` on the success path, so a normal
return exits 0 and an uncaught exception makes the interpreter exit 1. -/
def runMain (env : Env) (s rootPath : String) (root : Option DirT) : Nat :=
  match (searchRoot env s rootPath root).exn with
  | none => 0
  | some _ => 1

/-! ### Invariants of the traversal engine -/

/-- The real path recorded by a filename-match event, if any: exactly the
strings the script appends to `found_paths`. -/
def nameReal : Event → Option String
  | .nameMatch _ real => some real
  | _ => none

/-- The `found_paths` entries produced by a run are exactly the real paths of
its filename-match events, in order. -/
def FME (r : RunOut) : Prop := r.found = r.events.filterMap nameReal

/-- Every filename-match event of the run has a semantic path strictly longer
than `k` characters. -/
def NSL (k : Nat) (r : RunOut) : Prop :=
  ∀ a b, Event.nameMatch a b ∈ r.events → k < a.length

/-- Combined engine invariant. -/
def Inv (k : Nat) (r : RunOut) : Prop := FME r ∧ NSL k r

theorem Inv.seqRO {k : Nat} {a b : RunOut} (ha : Inv k a) (hb : Inv k b) :
    Inv k (RunOut.seq a b) := by
  obtain ⟨ha1, ha2⟩ := ha
  obtain ⟨hb1, hb2⟩ := hb
  unfold RunOut.seq
  cases h : a.exn with
  | some e => exact ⟨ha1, ha2⟩
  | none =>
    refine ⟨?_, ?_⟩
    · show _ = List.filterMap _ _
      simp only [List.filterMap_append]
      rw [← ha1, ← hb1]
    · intro x y hm
      rcases List.mem_append.mp hm with h' | h'
      · exact ha2 x y h'
      · exact hb2 x y h'

theorem Inv.mono {k k' : Nat} {r : RunOut} (h : k' ≤ k) (hr : Inv k r) : Inv k' r :=
  ⟨hr.1, fun a b hm => lt_of_le_of_lt h (hr.2 a b hm)⟩

theorem Inv.ofNoName {k : Nat} {r : RunOut} (hf : r.found = [])
    (h : ∀ e ∈ r.events, nameReal e = none) : Inv k r := by
  refine ⟨?_, ?_⟩
  · show r.found = _
    rw [hf, List.filterMap_eq_nil_iff.mpr h]
  · intro a b hm
    have := h _ hm
    simp [nameReal] at this

theorem Inv_done (k : Nat) : Inv k RunOut.done :=
  Inv.ofNoName rfl (by intro e he; simp [RunOut.done] at he)

theorem Inv_raise (k : Nat) (e : ExcKind) : Inv k (RunOut.raise e) :=
  Inv.ofNoName rfl (by intro x hx; simp [RunOut.raise] at hx)

theorem Inv_info (k : Nat) (m : String) : Inv k (infoOut m) :=
  Inv.ofNoName rfl (by intro x hx; simp [infoOut] at hx; subst hx; rfl)

theorem Inv_warn (k : Nat) (m : String) : Inv k (warnOut m) :=
  Inv.ofNoName rfl (by intro x hx; simp [warnOut] at hx; subst hx; rfl)

theorem Inv_nameCheck {k : Nat} (s semF fp : String) (h : k < semF.length) :
    Inv k (nameCheck s semF fp) := by
  unfold nameCheck
  split
  · refine ⟨?_, ?_⟩
    · show _ = List.filterMap _ _
      simp [nameReal]
    · intro a b hm
      simp at hm
      rw [hm.1]
      exact h
  · exact Inv.ofNoName rfl (by intro x hx; simp at hx)

theorem Inv_handle_bin (k : Nat) (env : Env) (s semF fp : String)
    (rb : Except ExcKind (List Nat)) : Inv k (handle_bin env s semF fp rb).1 := by
  rcases rb with e | data
  · exact Inv_raise k e
  · simp only [handle_bin]
    rcases h : BINARY_TEXT_ENCODINGS.find? (fun enc => isSubB (encodeStr env enc s) data)
      with _ | enc
    all_goals simp only [h]
    · exact Inv.ofNoName rfl (fun x hx => absurd hx (List.not_mem_nil x))
    · exact Inv.ofNoName rfl (fun x hx => by simp at hx; subst hx; rfl)

theorem Inv_handle_text (k : Nat) (s semF fp : String) (rt : Except ExcKind String) :
    Inv k (handle_text s semF fp rt).1 := by
  rcases rt with e | data
  · cases e <;>
      first
        | exact Inv_raise k _
        | exact Inv.ofNoName rfl (fun x hx => absurd hx (List.not_mem_nil x))
  · simp only [handle_text]
    split
    · exact Inv.ofNoName rfl (fun x hx => by simp at hx; subst hx; rfl)
    · exact Inv.ofNoName rfl (fun x hx => absurd hx (List.not_mem_nil x))

theorem Inv_handleOther (k : Nat) (env : Env) (s semF fp : String) (n : Node) :
    Inv k (handleOther env s semF fp n) := by
  unfold handleOther
  split
  · exact Inv_handle_bin k env s semF fp n.readBin
  · exact Inv.seqRO (Inv_handle_bin k env s semF fp n.readBin)
      (Inv_handle_text k s semF fp n.readText)

theorem length_slash (a b : String) : a.length < (a ++ "/" ++ b).length := by
  have h : ("/" : String).length = 1 := rfl
  rw [String.length_append, String.length_append, h]
  omega

mutual

theorem inv_searchD (env : Env) (s sem real : String) (d : DirT) :
    Inv sem.length (searchD env s sem real d) := by
  cases d with
  | mk fs ss =>
    simp only [searchD]
    exact Inv.seqRO (Inv_info _ _)
      (Inv.seqRO (inv_walkFiles env s sem real fs) (inv_walkSubs env s sem real ss))

theorem inv_walkFiles (env : Env) (s sem real : String) (fs : FileL) :
    Inv sem.length (walkFiles env s sem real fs) := by
  cases fs with
  | nil => simp only [walkFiles]; exact Inv_done _
  | cons name n rest =>
    simp only [walkFiles]
    exact Inv.seqRO (inv_processFile env s sem real name n)
      (inv_walkFiles env s sem real rest)

theorem inv_walkSubs (env : Env) (s sem real : String) (ss : SubL) :
    Inv sem.length (walkSubs env s sem real ss) := by
  cases ss with
  | nil => simp only [walkSubs]; exact Inv_done _
  | cons name dd rest =>
    cases dd with
    | mk fs2 ss2 =>
      simp only [walkSubs]
      exact Inv.seqRO
        (Inv.seqRO (inv_walkFiles env s sem (real ++ "/" ++ name) fs2)
          (inv_walkSubs env s sem (real ++ "/" ++ name) ss2))
        (inv_walkSubs env s sem real rest)

theorem inv_processFile (env : Env) (s sem real name : String) (n : Node) :
    Inv sem.length (processFile env s sem real name n) := by
  cases n with
  | mk t z sz rr ext rb rt =>
    simp only [processFile]
    refine Inv.seqRO (Inv_nameCheck _ _ _ (length_slash sem name)) ?_
    have hmono : sem.length ≤ (sem ++ "/" ++ name).length :=
      Nat.le_of_lt (length_slash sem name)
    rcases hc : classify (.mk t z sz rr ext rb rt) with e | c
    · simp only [hc]; exact Inv_raise _ e
    · cases c <;> simp only [hc]
      · exact Inv.mono hmono (inv_handle_tar env s _ _ ext)
      · exact Inv.mono hmono (inv_handle_zip env s _ _ ext)
      · exact Inv.mono hmono (inv_handle_7z env s _ _ ext)
      · exact Inv.mono hmono (inv_handle_rar env s _ _ ext)
      · exact Inv_handleOther _ env s _ _ _

theorem inv_handle_tar (env : Env) (s semF fp : String) (ext : ExtractRes) :
    Inv semF.length (handle_tar env s semF fp ext) := by
  cases ext with
  | ok d =>
    simp only [handle_tar]
    exact Inv.seqRO (Inv_info _ _) (inv_searchD env s semF (env.tmp fp) d)
  | err e =>
    cases e <;> simp only [handle_tar] <;>
      exact Inv.seqRO (Inv_info _ _) (by first | exact Inv_warn _ _ | exact Inv_raise _ _)

theorem inv_handle_zip (env : Env) (s semF fp : String) (ext : ExtractRes) :
    Inv semF.length (handle_zip env s semF fp ext) := by
  cases ext with
  | ok d =>
    simp only [handle_zip]
    exact Inv.seqRO (Inv_info _ _) (inv_searchD env s semF (env.tmp fp) d)
  | err e =>
    simp only [handle_zip]
    exact Inv.seqRO (Inv_info _ _) (Inv_raise _ _)

theorem inv_handle_7z (env : Env) (s semF fp : String) (ext : ExtractRes) :
    Inv semF.length (handle_7z env s semF fp ext) := by
  cases ext with
  | ok d =>
    simp only [handle_7z]
    exact Inv.seqRO (Inv_info _ _) (inv_searchD env s semF (env.tmp fp) d)
  | err e =>
    cases e <;> simp only [handle_7z] <;>
      exact Inv.seqRO (Inv_info _ _) (by first | exact Inv_warn _ _ | exact Inv_raise _ _)

theorem inv_handle_rar (env : Env) (s semF fp : String) (ext : ExtractRes) :
    Inv semF.length (handle_rar env s semF fp ext) := by
  cases ext with
  | ok d =>
    simp only [handle_rar]
    exact Inv.seqRO (Inv_info _ _) (inv_searchD env s semF (env.tmp fp) d)
  | err e =>
    cases e <;> simp only [handle_rar] <;>
      exact Inv.seqRO (Inv_info _ _) (by first | exact Inv_warn _ _ | exact Inv_raise _ _)

end

/-! ### Small supporting lemmas -/

theorem seq_events_of_none {a : RunOut} (b : RunOut) (h : a.exn = none) :
    (RunOut.seq a b).events = a.events ++ b.events := by
  simp [RunOut.seq, h]

theorem nameCheck_exn (s semF fp : String) : (nameCheck s semF fp).exn = none := by
  unfold nameCheck
  split <;> rfl

theorem isSubB_nil_left [DecidableEq α] (l : List α) : isSubB ([] : List α) l = true := by
  cases l <;> simp [isSubB, isPrefB]

theorem strIn_empty_left (hay : String) : strIn "" hay = true := by
  have h : ("" : String).data = [] := rfl
  rw [strIn, h, isSubB_nil_left]

theorem utf8Encode_empty : utf8Encode "" = [] := rfl

theorem forall_penc (P : PEncoding → Prop) :
    (∀ x : PEncoding, P x) ↔ P .utf8 ∧ P .eucjp ∧ P .sjis :=
  ⟨fun h => ⟨h _, h _, h _⟩, fun ⟨a, b, c⟩ x => by cases x <;> assumption⟩

theorem exists_penc (P : PEncoding → Prop) :
    (∃ x : PEncoding, P x) ↔ P .utf8 ∨ P .eucjp ∨ P .sjis := by
  constructor
  · rintro ⟨x, hx⟩
    cases x
    · exact Or.inl hx
    · exact Or.inr (Or.inl hx)
    · exact Or.inr (Or.inr hx)
  · rintro (h | h | h) <;> exact ⟨_, h⟩

/-- The classification-and-dispatch part of the per-file loop body (source
lines 119-132), as a standalone function: `processFile` is the filename check
sequenced with this. -/
def dispatchFile (env : Env) (s semF fp : String) (n : Node) : RunOut :=
  match classify n with
  | .error e => RunOut.raise e
  | .ok .tar => handle_tar env s semF fp n.extract
  | .ok .zip => handle_zip env s semF fp n.extract
  | .ok .sevenZip => handle_7z env s semF fp n.extract
  | .ok .rar => handle_rar env s semF fp n.extract
  | .ok .other => handleOther env s semF fp n

theorem processFile_eq (env : Env) (s sem real name : String) (n : Node) :
    processFile env s sem real name n
      = RunOut.seq (nameCheck s (sem ++ "/" ++ name) (real ++ "/" ++ name))
          (dispatchFile env s (sem ++ "/" ++ name) (real ++ "/" ++ name) n) := by
  cases n
  rfl

theorem dispatchFile_other (env : Env) (s semF fp : String) (n : Node)
    (h : classify n = .ok .other) :
    dispatchFile env s semF fp n = handleOther env s semF fp n := by
  unfold dispatchFile
  rw [h]

theorem nsl_dispatchFile (env : Env) (s semF fp : String) (n : Node) :
    NSL semF.length (dispatchFile env s semF fp n) := by
  unfold dispatchFile
  rcases hc : classify n with e | c
  · exact (Inv_raise _ _).2
  · cases c
    · exact (inv_handle_tar env s _ _ n.extract).2
    · exact (inv_handle_zip env s _ _ n.extract).2
    · exact (inv_handle_7z env s _ _ n.extract).2
    · exact (inv_handle_rar env s _ _ n.extract).2
    · exact (Inv_handleOther _ env s _ _ _).2

/-- Is this event a content match (binary or text)? -/
def isContent : Event → Bool
  | .binMatch _ _ _ => true
  | .textMatch _ _ => true
  | _ => false

theorem bin_count_le (env : Env) (s semF fp : String) (rb : Except ExcKind (List Nat)) :
    ((handle_bin env s semF fp rb).1.events.countP isContent) ≤ 1 := by
  rcases rb with e | data
  · simp [handle_bin, RunOut.raise]
  · simp only [handle_bin]
    rcases h : BINARY_TEXT_ENCODINGS.find? (fun enc => isSubB (encodeStr env enc s) data)
      with _ | enc
    all_goals simp [h, isContent]

theorem bin_events_of_false (env : Env) (s semF fp : String)
    (rb : Except ExcKind (List Nat)) (h : (handle_bin env s semF fp rb).2 = false) :
    (handle_bin env s semF fp rb).1.events = [] := by
  rcases rb with e | data
  · rfl
  · simp only [handle_bin] at h ⊢
    rcases hf : BINARY_TEXT_ENCODINGS.find? (fun enc => isSubB (encodeStr env enc s) data)
      with _ | enc
    · simp [hf]
    · rw [hf] at h
      simp at h

theorem text_count_le (s semF fp : String) (rt : Except ExcKind String) :
    ((handle_text s semF fp rt).1.events.countP isContent) ≤ 1 := by
  rcases rt with e | data
  · cases e <;> simp [handle_text, RunOut.raise]
  · simp only [handle_text]
    split <;> simp [isContent]

/-! ### Claims -/

/-- C8: format classification tests the probes in the fixed order tar, zip,
7z, rar with the plain-file branch as fallback, and the first probe that
returns `True` determines the classification: a file satisfying an earlier
probe is never handled by a later branch (the later probe results, even
erroring ones, are irrelevant once an earlier probe returned `True`). -/
theorem c8_classify_order (n : Node) :
    (n.isTar = .ok true → classify n = .ok .tar)
    ∧ (n.isTar = .ok false → n.isZip = .ok true → classify n = .ok .zip)
    ∧ (n.isTar = .ok false → n.isZip = .ok false → n.is7z = .ok true →
        classify n = .ok .sevenZip)
    ∧ (n.isTar = .ok false → n.isZip = .ok false → n.is7z = .ok false →
        n.isRar = .ok true → classify n = .ok .rar)
    ∧ (n.isTar = .ok false → n.isZip = .ok false → n.is7z = .ok false →
        n.isRar = .ok false → classify n = .ok .other) := by
  refine ⟨?_, ?_, ?_, ?_, ?_⟩ <;> intros <;> simp [classify, *]

/-- Witness for C8 at concrete probe outcomes; the tar case has the zip probe
erroring, which the classification never consults. -/
theorem c8_witness :
    classify (.mk (.ok true) (.error .osError) (.ok true) (.ok true)
        (.err .eofError) (.ok []) (.ok "")) = .ok .tar
    ∧ classify (.mk (.ok false) (.ok false) (.ok false) (.ok false)
        (.err .eofError) (.ok []) (.ok "")) = .ok .other :=
  ⟨(c8_classify_order _).1 rfl,
   (c8_classify_order _).2.2.2.2 rfl rfl rfl rfl⟩

/-- C9: a text-mode read whose bytes cannot be decoded raises
`UnicodeDecodeError`, which `handle_text` catches: the outcome is "no match"
(no event, no entry in `found_paths`, no escaping exception, result `False`),
so the traversal continues. -/
theorem c9_decode_failure_is_no_match (s semF fp : String) :
    handle_text s semF fp (Except.error ExcKind.unicodeDecodeError)
      = (⟨[], [], none⟩, false) := rfl

/-- C6: on byte content `data`, `handle_bin` reports a match with encoding
`enc` exactly when `bytes(s, enc)` occurs in `data` and no earlier encoding in
the priority order UTF-8, EUC-JP, Shift-JIS matches; and it reports some match
exactly when some configured encoding matches. -/
theorem c6_matchBinary (env : Env) (s semF fp : String) (data : List Nat)
    (enc : PEncoding) :
    ((handle_bin env s semF fp (Except.ok data)).1.events
        = [Event.binMatch semF fp enc]
      ↔ isSubB (encodeStr env enc s) data = true ∧
          ∀ e2 : PEncoding, pidx e2 < pidx enc →
            isSubB (encodeStr env e2 s) data = false)
    ∧ ((handle_bin env s semF fp (Except.ok data)).2 = true
      ↔ ∃ e2 : PEncoding, isSubB (encodeStr env e2 s) data = true) := by
  by_cases h0 : isSubB (encodeStr env .utf8 s) data = true <;>
    by_cases h1 : isSubB (encodeStr env .eucjp s) data = true <;>
      by_cases h2 : isSubB (encodeStr env .sjis s) data = true <;>
        cases enc <;>
          simp_all [handle_bin, BINARY_TEXT_ENCODINGS, List.find?, pidx,
            forall_penc, exists_penc]

/-- Witness for C6: search string "A", data holding only byte 65 (UTF-8 "A");
the match is reported with UTF-8. -/
theorem c6_witness :
    (handle_bin ⟨fun _ => "t", fun _ => [0xFF], fun _ => [0xFE]⟩ "A" "s" "p"
        (Except.ok [65])).1.events = [Event.binMatch "s" "p" PEncoding.utf8] :=
  (c6_matchBinary ⟨fun _ => "t", fun _ => [0xFF], fun _ => [0xFE]⟩ "A" "s" "p"
      [65] .utf8).1.mpr
    ⟨by decide, fun e2 h => absurd h (by cases e2 <;> decide)⟩

/-- C7: for a file classified plain (all four probes `False`), the per-file
loop body runs the filename check and then the content checks: its events are
the filename-check events followed by the binary/text-check events, where the
content part is computed by `handleOther` independently of the filename-check
outcome (no short-circuit); the content checks emit at most one content match
event; and when the binary check matched, the text check is not run (the
content part is exactly the binary check's output). -/
theorem c7_binary_first_text_fallback (env : Env) (s sem real name : String) (n : Node)
    (h1 : n.isTar = .ok false) (h2 : n.isZip = .ok false) (h3 : n.is7z = .ok false)
    (h4 : n.isRar = .ok false) :
    (processFile env s sem real name n).events
      = (nameCheck s (sem ++ "/" ++ name) (real ++ "/" ++ name)).events
        ++ (handleOther env s (sem ++ "/" ++ name) (real ++ "/" ++ name) n).events
    ∧ ((handleOther env s (sem ++ "/" ++ name) (real ++ "/" ++ name) n).events.countP
        isContent) ≤ 1
    ∧ ((handle_bin env s (sem ++ "/" ++ name) (real ++ "/" ++ name) n.readBin).2 = true →
        handleOther env s (sem ++ "/" ++ name) (real ++ "/" ++ name) n
          = (handle_bin env s (sem ++ "/" ++ name) (real ++ "/" ++ name) n.readBin).1) := by
  have hc : classify n = .ok .other := by
    simp [classify, h1, h2, h3, h4]
  refine ⟨?_, ?_, ?_⟩
  · rw [processFile_eq, seq_events_of_none _ (nameCheck_exn _ _ _),
      dispatchFile_other _ _ _ _ _ hc]
  · unfold handleOther
    split
    · exact bin_count_le env s _ _ n.readBin
    · next hfalse =>
      have hbe := bin_events_of_false env s (sem ++ "/" ++ name) (real ++ "/" ++ name)
        n.readBin (by simpa using hfalse)
      cases hx : (handle_bin env s (sem ++ "/" ++ name) (real ++ "/" ++ name)
          n.readBin).1.exn with
      | none =>
        rw [seq_events_of_none _ hx, hbe]
        simpa using text_count_le (s := s) _ _ n.readText
      | some e =>
        simp [RunOut.seq, hx, hbe]
  · intro h
    simp [handleOther, h]

/-- Witness for C7 on a concrete plain file whose bytes contain the UTF-8
search string, so the binary check matches and suppresses the text check. -/
theorem c7_witness :
    (processFile ⟨fun _ => "t", fun _ => [0xFF], fun _ => [0xFE]⟩ "A" "r" "r" "f.bin"
        (.mk (.ok false) (.ok false) (.ok false) (.ok false) (.err .eofError)
          (.ok [65]) (.ok "zzz"))).events
      = (nameCheck "A" "r/f.bin" "r/f.bin").events
        ++ (handleOther ⟨fun _ => "t", fun _ => [0xFF], fun _ => [0xFE]⟩ "A" "r/f.bin"
            "r/f.bin" (.mk (.ok false) (.ok false) (.ok false) (.ok false)
              (.err .eofError) (.ok [65]) (.ok "zzz"))).events :=
  (c7_binary_first_text_fallback ⟨fun _ => "t", fun _ => [0xFF], fun _ => [0xFE]⟩
    "A" "r" "r" "f.bin"
    (.mk (.ok false) (.ok false) (.ok false) (.ok false) (.err .eofError)
      (.ok [65]) (.ok "zzz")) rfl rfl rfl rfl).1

/-- C10: with the empty search string, the filename check succeeds for every
file (the first event of every per-file step is a filename match), and a
plain-classified file whose raw read succeeds gets a binary content match
reported with encoding UTF-8 (the empty byte string is found in any data, the
empty file included), the text check being suppressed. -/
theorem c10_empty_search_string (env : Env) (sem real name : String) (n n2 : Node)
    (data : List Nat)
    (h1 : n.isTar = .ok false) (h2 : n.isZip = .ok false) (h3 : n.is7z = .ok false)
    (h4 : n.isRar = .ok false) (h5 : n.readBin = .ok data) :
    (processFile env "" sem real name n2).events.take 1
      = [Event.nameMatch (sem ++ "/" ++ name) (real ++ "/" ++ name)]
    ∧ (processFile env "" sem real name n).events
      = [Event.nameMatch (sem ++ "/" ++ name) (real ++ "/" ++ name),
         Event.binMatch (sem ++ "/" ++ name) (real ++ "/" ++ name) PEncoding.utf8] := by
  have hname : nameCheck "" (sem ++ "/" ++ name) (real ++ "/" ++ name)
      = ⟨[.nameMatch (sem ++ "/" ++ name) (real ++ "/" ++ name)],
         [real ++ "/" ++ name], none⟩ := by
    unfold nameCheck
    rw [strIn_empty_left]
    simp
  constructor
  · rw [processFile_eq, seq_events_of_none _ (nameCheck_exn _ _ _), hname]
    simp
  · have hc : classify n = .ok .other := by
      simp [classify, h1, h2, h3, h4]
    rw [processFile_eq, seq_events_of_none _ (nameCheck_exn _ _ _), hname,
      dispatchFile_other _ _ _ _ _ hc]
    have hbin : handle_bin env "" (sem ++ "/" ++ name) (real ++ "/" ++ name) n.readBin
        = (⟨[.binMatch (sem ++ "/" ++ name) (real ++ "/" ++ name) PEncoding.utf8],
            [], none⟩, true) := by
      rw [h5]
      simp only [handle_bin, BINARY_TEXT_ENCODINGS]
      rw [List.find?_cons_of_pos]
      simp [encodeStr, utf8Encode_empty, isSubB_nil_left]
    simp [handleOther, hbin]

/-- Witness for C10 on a concrete empty plain file. -/
theorem c10_witness :
    (processFile ⟨fun _ => "t", fun _ => [0xFF], fun _ => [0xFE]⟩ "" "r" "r" "e.bin"
        (.mk (.ok false) (.ok false) (.ok false) (.ok false) (.err .eofError)
          (.ok []) (.ok ""))).events
      = [Event.nameMatch "r/e.bin" "r/e.bin",
         Event.binMatch "r/e.bin" "r/e.bin" PEncoding.utf8] :=
  (c10_empty_search_string ⟨fun _ => "t", fun _ => [0xFF], fun _ => [0xFE]⟩
    "r" "r" "e.bin"
    (.mk (.ok false) (.ok false) (.ok false) (.ok false) (.err .eofError)
      (.ok []) (.ok ""))
    (.mk (.ok false) (.ok false) (.ok false) (.ok false) (.err .eofError)
      (.ok []) (.ok ""))
    [] rfl rfl rfl rfl rfl).2

/-! ### Concrete fixtures for counterexamples and witnesses -/

/-- A concrete environment: fixed scratch-directory naming, arbitrary
single-byte tables for the two non-UTF-8 encodings. -/
def env0 : Env := ⟨fun _ => "/tmp/scratch", fun _ => [0xFF], fun _ => [0xFE]⟩

/-- A plain file whose content is the UTF-8 text "Z". -/
def hitNode : Node :=
  .mk (.ok false) (.ok false) (.ok false) (.ok false) (.err .eofError)
    (.ok [90]) (.ok "Z")

/-- Root directory holding one tar archive `a.tar` that extracts to a single
empty plain file `x.txt`. -/
def c1tree : DirT :=
  .mk (.cons "a.tar"
        (.mk (.ok true) (.ok false) (.ok false) (.ok false)
          (.ok (.mk (.cons "x.txt"
                  (.mk (.ok false) (.ok false) (.ok false) (.ok false)
                    (.err .eofError) (.ok []) (.ok "")) .nil) .nil))
          (.ok []) (.ok ""))
        .nil) .nil

/-- Root directory holding a corrupt zip (`is_zipfile` true, `extractall`
raises `BadZipFile`) followed by a sibling plain file containing "Z". -/
def c2tree : DirT :=
  .mk (.cons "bad.zip"
        (.mk (.ok false) (.ok true) (.ok false) (.ok false) (.err .badZipFile)
          (.ok []) (.ok ""))
        (.cons "hit.txt" hitNode .nil)) .nil

/-- Root directory holding one plain text file `notes.txt` with content
"the password is xyz42" (raw bytes are its UTF-8 encoding). -/
def c3tree : DirT :=
  .mk (.cons "notes.txt"
        (.mk (.ok false) (.ok false) (.ok false) (.ok false) (.err .eofError)
          (.ok (utf8Encode "the password is xyz42"))
          (.ok "the password is xyz42"))
        .nil) .nil

/-- Root directory holding an unreadable file (the `tarfile.is_tarfile` probe
raises `OSError`) followed by a sibling plain file containing "Z". -/
def c5tree : DirT :=
  .mk (.cons "locked.bin"
        (.mk (.error .osError) (.ok false) (.ok false) (.ok false)
          (.err .eofError) (.ok []) (.ok ""))
        (.cons "hit.txt" hitNode .nil)) .nil

/-- C1 (amended): the filename check of the per-file loop body is a literal
substring test of the search string against the stringified real filesystem
path `str(file_path)` (inside archives this is the scratch extraction path,
not the chain of archive-entry names); whenever that real path contains the
search string, exactly one filename MatchRecord for the file is emitted by its
loop step, and none otherwise, regardless of the file's content. -/
theorem c1_filename_check_uses_real_path (env : Env) (s sem real name : String)
    (n : Node) :
    ((processFile env s sem real name n).events.countP
        (fun e => decide
          (e = Event.nameMatch (sem ++ "/" ++ name) (real ++ "/" ++ name))))
      = if strIn s (real ++ "/" ++ name) then 1 else 0 := by
  rw [processFile_eq, seq_events_of_none _ (nameCheck_exn _ _ _), List.countP_append]
  have h0 : ((dispatchFile env s (sem ++ "/" ++ name) (real ++ "/" ++ name) n).events.countP
      (fun e => decide
        (e = Event.nameMatch (sem ++ "/" ++ name) (real ++ "/" ++ name)))) = 0 := by
    rw [List.countP_eq_zero]
    intro e he hp
    have heq : e = Event.nameMatch (sem ++ "/" ++ name) (real ++ "/" ++ name) :=
      of_decide_eq_true hp
    subst heq
    exact absurd (nsl_dispatchFile env s _ _ n _ _ he) (Nat.lt_irrefl _)
  rw [h0, Nat.add_zero]
  cases h : strIn s (real ++ "/" ++ name) <;> simp [nameCheck, h]

/-- Counterexample to C1 as stated: searching for "a.tar" in a root `r`
containing the archive `a.tar` which holds `x.txt`.  The semantic path of
`x.txt` is `r/a.tar/x.txt`, which contains the search string, yet the run
emits no filename MatchRecord for `x.txt` (the only filename record is for the
archive file itself): the check tested `x.txt`'s real scratch path
`/tmp/scratch/x.txt`, not its semantic path. -/
theorem c1_counterexample :
    strIn "a.tar" "r/a.tar/x.txt" = true
    ∧ (searchD env0 "a.tar" "r" "r" c1tree).events
      = [.info "Entering r", .nameMatch "r/a.tar" "r/a.tar",
         .info "Extracting tar r/a.tar", .info "Entering r/a.tar"]
    ∧ ((searchD env0 "a.tar" "r" "r" c1tree).events.countP
        (fun e => match e with
          | .nameMatch a _ => decide (a = "r/a.tar/x.txt")
          | _ => false)) = 0
    ∧ (searchD env0 "a.tar" "r" "r" c1tree).exn = none := by decide

/-- C2: the code contradicts the spec here.  A zip recognized by
`zipfile.is_zipfile` whose `extractall` raises (e.g. a truncated central
directory) aborts the whole run: `handle_zip` has no `try/except`, so the
exception propagates; no warning is emitted and the sibling `hit.txt`, whose
content holds the search string, is never searched. -/
theorem c2_zip_failure_aborts_run :
    (searchD env0 "Z" "r" "r" c2tree).exn = some ExcKind.badZipFile
    ∧ (searchD env0 "Z" "r" "r" c2tree).events
      = [.info "Entering r", .info "Extracting zip r/bad.zip"]
    ∧ ((searchD env0 "Z" "r" "r" c2tree).events.countP isContent) = 0 := by decide

/-- C3 (amended): the `found_paths` list receives exactly the real paths of
the filename MatchRecords, once each, in emission order (list concatenation
only appends, nothing is removed); content matches — binary or text — are
printed but never added to the list. -/
theorem c3_found_list_is_filename_matches (env : Env) (s p : String)
    (root : Option DirT) :
    (searchRoot env s p root).found
      = (searchRoot env s p root).events.filterMap nameReal := by
  cases root with
  | none => simp [searchRoot, nameReal]
  | some d => exact (inv_searchD env s p p d).1

/-- Counterexample to C3 as stated: the spec's own §8 example — `notes.txt`
containing "the password is xyz42", searched for "xyz42".  A content
MatchRecord is emitted (a binary match, since the UTF-8 bytes of the search
string occur in the raw content), but `found_paths` stays empty: content
matches are never appended to the result list. -/
theorem c3_counterexample :
    (searchD env0 "xyz42" "r" "r" c3tree).events
      = [.info "Entering r", .binMatch "r/notes.txt" "r/notes.txt" .utf8]
    ∧ (searchD env0 "xyz42" "r" "r" c3tree).found = [] := by decide

/-- C4 (amended): the run exits 0 whenever `search` returns without an
uncaught exception — including on a root path that does not exist, which
`os.walk` silently treats as empty (only the "Entering" line is printed, no
error message), and including runs with zero matches; the exit status is 1
exactly when an uncaught exception escapes `search` (which extraction
failures can cause), not on invalid-root setup errors. -/
theorem c4_exit_status (env : Env) (s p : String) (root : Option DirT) :
    runMain env s p none = 0
    ∧ searchRoot env s p none = ⟨[.info ("Entering " ++ p)], [], none⟩
    ∧ ((searchRoot env s p root).exn = none → runMain env s p root = 0)
    ∧ (∀ e, (searchRoot env s p root).exn = some e → runMain env s p root = 1) := by
  refine ⟨rfl, rfl, ?_, ?_⟩
  · intro h
    unfold runMain
    rw [h]
  · intro e h
    unfold runMain
    rw [h]

/-- Witness for C4: a zero-match run over a real directory exits 0, and a run
aborted by a zip extraction failure exits 1. -/
theorem c4_witness :
    runMain env0 "q" "r" (some c3tree) = 0
    ∧ runMain env0 "Z" "r" (some c2tree) = 1 :=
  ⟨(c4_exit_status env0 "q" "r" (some c3tree)).2.2.1 (by decide),
   (c4_exit_status env0 "Z" "r" (some c2tree)).2.2.2 ExcKind.badZipFile (by decide)⟩

/-- Counterexample to C4 as stated: an invalid root path does not terminate
with a non-zero exit and an error message — the run exits 0 and prints only
the "Entering" info line (the script's `error` helper is never called). -/
theorem c4_counterexample :
    runMain env0 "x" "missing" none = 0
    ∧ (searchRoot env0 "x" "missing" none).events = [.info "Entering missing"]
    ∧ (searchRoot env0 "x" "missing" none).exn = none := by decide

/-- C5 (amended): the only swallowed matcher error is `UnicodeDecodeError`
during the text read (a no-match outcome); an exception raised by the first
classification probe (`tarfile.is_tarfile`, which propagates `OSError` on an
unreadable file) escapes the per-file step — the file is not classified as
plain/Other, no content matching runs, and the exception aborts the
traversal; likewise a failing raw read in `handle_bin` propagates. -/
theorem c5_error_isolation (env : Env) (s sem real name semF fp : String)
    (n : Node) (e : ExcKind) (h : n.isTar = Except.error e) :
    handle_text s semF fp (Except.error ExcKind.unicodeDecodeError)
      = (⟨[], [], none⟩, false)
    ∧ (processFile env s sem real name n).exn = some e
    ∧ (processFile env s sem real name n).events
        = (nameCheck s (sem ++ "/" ++ name) (real ++ "/" ++ name)).events
    ∧ handle_bin env s semF fp (Except.error e) = (RunOut.raise e, false) := by
  have hc : classify n = .error e := by simp [classify, h]
  have hd : dispatchFile env s (sem ++ "/" ++ name) (real ++ "/" ++ name) n
      = RunOut.raise e := by
    unfold dispatchFile
    rw [hc]
  refine ⟨rfl, ?_, ?_, rfl⟩
  · rw [processFile_eq, hd]
    simp [RunOut.seq, nameCheck_exn, RunOut.raise]
  · rw [processFile_eq, hd]
    simp [RunOut.seq, nameCheck_exn, RunOut.raise]

/-- Witness for C5 at a concrete unreadable file. -/
theorem c5_witness :
    (processFile env0 "q" "r" "r" "locked.bin"
        (.mk (.error .osError) (.ok false) (.ok false) (.ok false)
          (.err .eofError) (.ok []) (.ok ""))).exn = some ExcKind.osError :=
  (c5_error_isolation env0 "q" "r" "r" "locked.bin" "a" "b"
    (.mk (.error .osError) (.ok false) (.ok false) (.ok false)
      (.err .eofError) (.ok []) (.ok ""))
    ExcKind.osError rfl).2.1

/-- Counterexample to C5 as stated: an unreadable file (the `is_tarfile`
probe raises `OSError`) is not classified as Other — the exception aborts the
run and the sibling `hit.txt`, which contains the search string, is never
examined. -/
theorem c5_counterexample :
    (searchD env0 "Z" "r" "r" c5tree).exn = some ExcKind.osError
    ∧ (searchD env0 "Z" "r" "r" c5tree).events = [.info "Entering r"]
    ∧ ((searchD env0 "Z" "r" "r" c5tree).events.countP isContent) = 0 := by decide

end Recursearch
